import Mathlib

/-!
# A metrics-exposing HTTP server (`src/Node.js`)

The program wires a web framework (`express`) to a metrics client library
(`prom-client`): it creates a registry, sets one default label, installs the
default process metrics, registers one counter, counts requests whose path is
`/` in a middleware, and serves two `GET` routes (`/metrics` and `/`).

The embedding is a state-passing one.  The mutable objects of the program are
the registry `register` and the counter `rootHttpRequestCounter`; a request is
handled by a function `Server → Server × Option Response`.

* The statements of `src/Node.js` (start-up sequence, counting middleware, the
  two route handlers, their registration order) are translated line by line.
* The registry and the counter are objects of the metrics library, whose code
  is not part of `src/`.  Their operations are modelled from the contracts of
  sections 4.1 and 4.2 of the specification; each such definition says so.
* The list of metrics installed by `collectDefaultMetrics` and the values the
  process reports for them at render time are not fixed by the program: they
  are parameters (`defaults : List DefaultMetric`, `probe : ProcessProbe`).
* Counter values are natural numbers (the idealisation of the library's
  numeric value under increments by one starting from zero).
-/

namespace NodeApp

/-! ## Metrics library: data model (specification, section 3) -/

/-- Label key-value pairs, in the order in which they are written on a sample line. -/
abbrev Labels := List (String × String)

/-- Kind of a metric (specification, section 3). -/
inductive MetricKind
  | counter
  | gauge
  | histogram
  | summary
  deriving DecidableEq

/-- Word written for a kind on a `# TYPE` comment line. -/
def MetricKind.word : MetricKind → String
  | .counter => "counter"
  | .gauge => "gauge"
  | .histogram => "histogram"
  | .summary => "summary"

/-- One sample of a metric: sample name, the labels attached to it, and the value as it
is printed. -/
structure Sample where
  name : String
  labels : Labels
  value : String
  deriving DecidableEq

/-- Where the samples of a registered metric come from when the registry is rendered:
the counter object bound to `rootHttpRequestCounter`, or the process itself (default
metrics, sampled lazily at render time). -/
inductive Collector
  | rootCounter
  | processHealth
  deriving DecidableEq

/-- A metric as the registry holds it. -/
structure Metric where
  name : String
  help : String
  kind : MetricKind
  collector : Collector
  deriving DecidableEq

/-- Modelled from the spec: the counter metric of section 4.2 (`new client.Counter`),
a name, a help text and the accumulated total. The library class is not under `src/`. -/
structure Counter where
  name : String
  help : String
  value : Nat
  deriving DecidableEq

/-- Modelled from the spec: `inc()` of section 4.2 with its default amount 1, which adds
the amount to the current value. -/
def Counter.inc (c : Counter) : Counter :=
  { c with value := c.value + 1 }

/-- The registry entry that stands for a counter object. -/
def Metric.ofCounter (c : Counter) : Metric :=
  ⟨c.name, c.help, .counter, .rootCounter⟩

/-- A metric installed by `collectDefaultMetrics`: only its registration data; its
samples are read from the process when the registry is rendered. -/
structure DefaultMetric where
  name : String
  help : String
  kind : MetricKind
  deriving DecidableEq

/-- The registry entry of a default metric. -/
def DefaultMetric.toMetric (d : DefaultMetric) : Metric :=
  ⟨d.name, d.help, d.kind, .processHealth⟩

/-- What the process reports, at one instant, for the default metric of a given name:
its raw samples (before default labels are merged in). -/
abbrev ProcessProbe := String → List Sample

/-! ## Metrics library: registry (specification, section 4.1) -/

/-- Modelled from the spec: the registry of section 3, an ordered collection of metrics
(insertion order) with a default-label set. The library class is not under `src/`. -/
structure Registry where
  defaultLabels : Labels
  metrics : List Metric
  deriving DecidableEq

/-- Failure of a registry operation. -/
inductive RegistryError
  | duplicateName (name : String)
  deriving DecidableEq

/-- Modelled from the spec: `new client.Registry()`, an empty registry. -/
def Registry.new : Registry :=
  ⟨[], []⟩

/-- Names of the registered metrics, in registration order. -/
def Registry.names (r : Registry) : List String :=
  r.metrics.map Metric.name

/-- Modelled from the spec: `setDefaultLabels(labels)` of section 4.1, which stores the
mapping applied to every sample on render. -/
def Registry.setDefaultLabels (r : Registry) (labels : Labels) : Registry :=
  { r with defaultLabels := labels }

/-- Modelled from the spec: `register(metric)` of section 4.1. It adds the metric at the
end of the registry, and fails with a duplicate-name error if a metric with the same
name already exists. The result pairs the outcome of the call with the registry as it
is after the call. -/
def Registry.registerMetric (r : Registry) (m : Metric) :
    Except RegistryError Unit × Registry :=
  if m.name ∈ r.names then
    (.error (.duplicateName m.name), r)
  else
    (.ok (), { r with metrics := r.metrics ++ [m] })

/-- Modelled from the spec: `collectDefaultMetrics()` of section 4.1, which populates the
registry with the standard process metrics, one registration after the other; the
first failing registration ends the call. The list of metrics is a parameter. -/
def collectDefaultMetrics (defaults : List DefaultMetric) (r : Registry) :
    Except RegistryError Unit × Registry :=
  match defaults with
  | [] => (.ok (), r)
  | d :: ds =>
    match r.registerMetric d.toMetric with
    | (.ok _, r1) => collectDefaultMetrics ds r1
    | (.error e, r1) => (.error e, r1)

/-! ## Metrics library: rendering (specification, section 4.1, `render()`) -/

/-- Modelled from the spec: the default-label set is merged into the labels of a sample
(section 3); the labels of the sample come first. -/
def mergeLabels (own defaults : Labels) : Labels :=
  own ++ defaults

/-- One label pair as printed inside the braces of a sample line. -/
def renderLabel (kv : String × String) : String :=
  kv.1 ++ "=\"" ++ kv.2 ++ "\""

/-- Label pairs separated by commas. -/
def renderLabels : Labels → String
  | [] => ""
  | [kv] => renderLabel kv
  | kv :: rest => renderLabel kv ++ "," ++ renderLabels rest

/-- Modelled from the spec: a sample line of the exposition format,
`name{label="value",...} value`; a sample without labels is printed `name value`. -/
def Sample.line (s : Sample) : String :=
  if s.labels.isEmpty then
    s.name ++ " " ++ s.value
  else
    s.name ++ "\x7b" ++ renderLabels s.labels ++ "\x7d " ++ s.value

/-- The rendering of one metric: its registration data and the samples printed for it
(default labels merged in). -/
structure Exposition where
  name : String
  help : String
  kind : MetricKind
  samples : List Sample
  deriving DecidableEq

/-- The `# HELP` comment line of a metric. -/
def Exposition.helpLine (e : Exposition) : String :=
  "# HELP " ++ e.name ++ " " ++ e.help

/-- The `# TYPE` comment line of a metric. -/
def Exposition.typeLine (e : Exposition) : String :=
  "# TYPE " ++ e.name ++ " " ++ e.kind.word

/-- The sample lines of a metric. -/
def Exposition.sampleLines (e : Exposition) : List String :=
  e.samples.map Sample.line

/-- Modelled from the spec: the text lines of one metric, the HELP and TYPE comments
followed by one line per sample. -/
def Exposition.lines (e : Exposition) : List String :=
  e.helpLine :: e.typeLine :: e.sampleLines

/-- The raw samples of a registered metric at render time: the single, label-free sample
of the counter, or what the process reports for a default metric. -/
def collect (probe : ProcessProbe) (counter : Counter) (m : Metric) : List Sample :=
  match m.collector with
  | .rootCounter => [⟨counter.name, [], toString counter.value⟩]
  | .processHealth => probe m.name

/-- Modelled from the spec: `render()` of section 4.1 (called as `register.metrics()` in
the source), metric by metric in registration order, every sample carrying the default
labels. It only reads the registry and the counter. -/
def Registry.render (r : Registry) (probe : ProcessProbe) (counter : Counter) :
    List Exposition :=
  r.metrics.map fun m =>
    { name := m.name
      help := m.help
      kind := m.kind
      samples := (collect probe counter m).map fun s =>
        { s with labels := mergeLabels s.labels r.defaultLabels } }

/-- The text of a rendering: its lines, metric after metric. -/
def expositionLines (es : List Exposition) : List String :=
  es.flatMap Exposition.lines

/-- Lines joined by newline characters. -/
def joinLines : List String → String
  | [] => ""
  | [l] => l
  | l :: rest => l ++ "\n" ++ joinLines rest

/-- Segments of a character sequence between newline characters. -/
def splitLines : List Char → List (List Char)
  | [] => [[]]
  | c :: cs =>
    if c = '\n' then
      [] :: splitLines cs
    else
      match splitLines cs with
      | [] => [[c]]
      | l :: ls => (c :: l) :: ls

/-- The lines of a text. -/
def textLines (text : String) : List String :=
  (splitLines text.data).map String.mk

/-- The value a rendering reports for the metric of a given name: the value of the first
sample of the first metric with that name. -/
def reportedValue (es : List Exposition) (name : String) : Option String :=
  match es.find? (fun e => e.name = name) with
  | none => none
  | some e => e.samples.head?.map Sample.value

/-! ## Web framework: requests, responses, route matching -/

/-- HTTP request methods. -/
inductive Method
  | GET
  | HEAD
  | POST
  | PUT
  | DELETE
  | PATCH
  | OPTIONS
  deriving DecidableEq

/-- What the program reads of a request: its method and `req.path`. -/
structure Request where
  method : Method
  path : String
  deriving DecidableEq

/-- Value of the `Content-Type` header of a response: what the framework chooses when
the handler sets nothing, or `register.contentType`, the media type the metrics library
declares for its exposition format. -/
inductive ContentType
  | frameworkDefault
  | registerContentType
  deriving DecidableEq

/-- Payload a handler hands to the response object: a string given to `res.send`, or the
rendering of the registry given to `res.end`. -/
inductive Body
  | sent (s : String)
  | metrics (es : List Exposition)
  deriving DecidableEq

/-- The text of a payload. -/
def Body.text : Body → String
  | .sent s => s
  | .metrics es => joinLines (expositionLines es)

/-- A response as a route handler of the program produces it. -/
structure Response where
  status : Nat
  contentType : ContentType
  body : Body
  deriving DecidableEq

/-- A route registered with `app.get` is run for `GET` requests, and for `HEAD`
requests as well (the framework answers `HEAD` through the `GET` route). -/
def handledByGet : Method → Bool
  | .GET => true
  | .HEAD => true
  | _ => false

/-- Letters compared without regard to case (the framework's default routing is not
case sensitive). -/
def lowerPath (p : String) : List Char :=
  p.data.map Char.toLower

/-- The framework's default matching of a literal route path against `req.path`: the
whole path, case-insensitive, with one optional trailing slash (routing is not strict
by default). -/
def routeMatches (route path : String) : Bool :=
  let r := lowerPath route
  let q := lowerPath path
  if r.getLast? = some '/' then
    decide (q = r) || decide (q = r.dropLast)
  else
    decide (q = r) || decide (q = r ++ ['/'])

/-! ## The program (`src/Node.js`) -/

/-- State of the running program: the two mutable objects it creates. -/
structure Server where
  register : Registry
  rootHttpRequestCounter : Counter
  deriving DecidableEq

/-- Lines 8 to 25: create the registry, set the default label, install the default
metrics, create the counter and register it. A failing registration throws at module
level, so no server comes into being. -/
def startup (defaults : List DefaultMetric) : Except RegistryError Server :=
  let register := Registry.new
  let register := register.setDefaultLabels [("app", "nodejs_system_app")]
  match collectDefaultMetrics defaults register with
  | (.error e, _) => .error e
  | (.ok _, register) =>
    let rootHttpRequestCounter : Counter :=
      { name := "http_requests_root_total"
        help := "Total number of HTTP requests to the root path"
        value := 0 }
    match register.registerMetric (Metric.ofCounter rootHttpRequestCounter) with
    | (.error e, _) => .error e
    | (.ok _, register) => .ok ⟨register, rootHttpRequestCounter⟩

/-- Lines 28 to 33: the middleware run for every request before route dispatch. -/
def countingMiddleware (req : Request) (s : Server) : Server :=
  if req.path = "/" then
    { s with rootHttpRequestCounter := s.rootHttpRequestCounter.inc }
  else
    s

/-- Lines 36 to 39: the handler of `GET /metrics`. -/
def metricsHandler (probe : ProcessProbe) (s : Server) : Server × Response :=
  (s, { status := 200
        contentType := .registerContentType
        body := .metrics (s.register.render probe s.rootHttpRequestCounter) })

/-- Lines 42 to 44: the handler of `GET /`. -/
def rootHandler (s : Server) : Server × Response :=
  (s, { status := 200
        contentType := .frameworkDefault
        body := .sent "Hello From Node.js app Test" })

/-- Route dispatch, in the order the routes are registered: `/metrics` first, then `/`.
`none` means that no handler of the program ran and the framework answers by itself. -/
def dispatch (probe : ProcessProbe) (req : Request) (s : Server) :
    Server × Option Response :=
  if handledByGet req.method && routeMatches "/metrics" req.path then
    let (s1, res) := metricsHandler probe s
    (s1, some res)
  else if handledByGet req.method && routeMatches "/" req.path then
    let (s1, res) := rootHandler s
    (s1, some res)
  else
    (s, none)

/-- Handling of one request end to end: the counting middleware, then (`next()`) the
route dispatch. `probe` is what the process reports at that moment. -/
def handle (probe : ProcessProbe) (req : Request) (s : Server) :
    Server × Option Response :=
  dispatch probe req (countingMiddleware req s)

/-- A request arriving at the server, with the state of the process at that moment. -/
structure Arrival where
  probe : ProcessProbe
  req : Request

/-- The server after handling a sequence of requests one after the other. -/
def run (s : Server) : List Arrival → Server
  | [] => s
  | a :: rest => run (handle a.probe a.req s).1 rest

/-- Number of requests of a sequence whose path is exactly `/`. -/
def rootRequests (trace : List Arrival) : Nat :=
  trace.countP fun a => decide (a.req.path = "/")

/-- A state the server can be in: reached from a successful start-up by handling some
sequence of requests. -/
def Reachable (defaults : List DefaultMetric) (s : Server) : Prop :=
  ∃ s0 trace, startup defaults = .ok s0 ∧ s = run s0 trace

/-- The request `GET /`. -/
def getRoot : Request :=
  ⟨.GET, "/"⟩

/-- The request `GET /metrics`. -/
def getMetrics : Request :=
  ⟨.GET, "/metrics"⟩

/-- A sample list of default metrics for concrete evaluations. -/
def sampleDefaults : List DefaultMetric :=
  [ ⟨"process_cpu_user_seconds_total", "Total user CPU time spent in seconds.", .counter⟩,
    ⟨"process_resident_memory_bytes", "Resident memory size in bytes.", .gauge⟩,
    ⟨"nodejs_version_info", "Node.js version info.", .gauge⟩ ]

/-- A sample process report for concrete evaluations. -/
def sampleProbe : ProcessProbe := fun name =>
  if name = "process_cpu_user_seconds_total" then
    [⟨"process_cpu_user_seconds_total", [], "0.046875"⟩]
  else if name = "process_resident_memory_bytes" then
    [⟨"process_resident_memory_bytes", [], "45297664"⟩]
  else if name = "nodejs_version_info" then
    [⟨"nodejs_version_info", [("version", "v18.0.0"), ("major", "18")], "1"⟩]
  else
    []

/-- The server that start-up builds from `sampleDefaults`. -/
def sampleServer : Server :=
  { register :=
      { defaultLabels := [("app", "nodejs_system_app")]
        metrics :=
          [ ⟨"process_cpu_user_seconds_total", "Total user CPU time spent in seconds.",
              .counter, .processHealth⟩,
            ⟨"process_resident_memory_bytes", "Resident memory size in bytes.",
              .gauge, .processHealth⟩,
            ⟨"nodejs_version_info", "Node.js version info.", .gauge, .processHealth⟩,
            ⟨"http_requests_root_total", "Total number of HTTP requests to the root path",
              .counter, .rootCounter⟩ ] }
    rootHttpRequestCounter :=
      ⟨"http_requests_root_total", "Total number of HTTP requests to the root path", 0⟩ }

/-- Three requests `GET /`. -/
def threeRootRequests : List Arrival :=
  [⟨sampleProbe, getRoot⟩, ⟨sampleProbe, getRoot⟩, ⟨sampleProbe, getRoot⟩]

/-! ## Effect of request handling on the state -/

theorem countingMiddleware_register (req : Request) (s : Server) :
    (countingMiddleware req s).register = s.register := by
  unfold countingMiddleware
  split <;> rfl

theorem dispatch_fst (probe : ProcessProbe) (req : Request) (s : Server) :
    (dispatch probe req s).1 = s := by
  unfold dispatch metricsHandler rootHandler
  split
  · rfl
  · split <;> rfl

theorem handle_fst (probe : ProcessProbe) (req : Request) (s : Server) :
    (handle probe req s).1 = countingMiddleware req s := by
  unfold handle
  exact dispatch_fst probe req _

theorem countingMiddleware_value (req : Request) (s : Server) :
    (countingMiddleware req s).rootHttpRequestCounter.value =
      s.rootHttpRequestCounter.value + (if req.path = "/" then 1 else 0) := by
  unfold countingMiddleware
  split <;> simp [Counter.inc]

theorem countingMiddleware_name (req : Request) (s : Server) :
    (countingMiddleware req s).rootHttpRequestCounter.name = s.rootHttpRequestCounter.name := by
  unfold countingMiddleware
  split <;> simp [Counter.inc]

theorem run_register (s : Server) (trace : List Arrival) :
    (run s trace).register = s.register := by
  induction trace generalizing s with
  | nil => rfl
  | cons a rest ih =>
    simp only [run]
    rw [ih, handle_fst, countingMiddleware_register]

theorem run_name (s : Server) (trace : List Arrival) :
    (run s trace).rootHttpRequestCounter.name = s.rootHttpRequestCounter.name := by
  induction trace generalizing s with
  | nil => rfl
  | cons a rest ih =>
    simp only [run]
    rw [ih, handle_fst, countingMiddleware_name]

theorem run_value (s : Server) (trace : List Arrival) :
    (run s trace).rootHttpRequestCounter.value =
      s.rootHttpRequestCounter.value + rootRequests trace := by
  induction trace generalizing s with
  | nil => simp [run, rootRequests]
  | cons a rest ih =>
    simp only [run]
    rw [ih, handle_fst, countingMiddleware_value]
    unfold rootRequests
    rw [List.countP_cons]
    by_cases h : a.req.path = "/" <;> simp [h]
    omega

theorem run_append (s : Server) (t1 t2 : List Arrival) :
    run s (t1 ++ t2) = run (run s t1) t2 := by
  induction t1 generalizing s with
  | nil => rfl
  | cons a rest ih => simp only [List.cons_append, run]; exact ih _

/-! ## Start-up -/

theorem collectDefaultMetrics_ok (defaults : List DefaultMetric) (r : Registry)
    (hnd : (defaults.map DefaultMetric.name).Nodup)
    (hdis : ∀ d ∈ defaults, d.name ∉ r.names) :
    collectDefaultMetrics defaults r =
      (.ok (), { r with metrics := r.metrics ++ defaults.map DefaultMetric.toMetric }) := by
  induction defaults generalizing r with
  | nil => simp [collectDefaultMetrics]
  | cons d ds ih =>
    have hd : d.name ∉ r.names := hdis d (List.mem_cons_self _ _)
    simp only [List.map_cons, List.nodup_cons] at hnd
    simp only [collectDefaultMetrics, Registry.registerMetric, DefaultMetric.toMetric, hd,
      if_false]
    rw [ih]
    · simp [DefaultMetric.toMetric]
    · exact hnd.2
    · intro e he
      simp only [Registry.names, List.map_append, List.map_cons, List.map_nil, List.mem_append,
        List.mem_singleton, not_or]
      refine ⟨hdis e (List.mem_cons_of_mem _ he), ?_⟩
      intro heq
      apply hnd.1
      rw [← heq]
      exact List.mem_map_of_mem _ he

theorem collectDefaultMetrics_error (defaults : List DefaultMetric) (r : Registry)
    (h : ¬ ((defaults.map DefaultMetric.name).Nodup ∧ ∀ d ∈ defaults, d.name ∉ r.names)) :
    ∃ e r1, collectDefaultMetrics defaults r = (.error e, r1) := by
  induction defaults generalizing r with
  | nil => simp at h
  | cons d ds ih =>
    by_cases hd : d.name ∈ r.names
    · refine ⟨.duplicateName d.name, r, ?_⟩
      simp [collectDefaultMetrics, Registry.registerMetric, DefaultMetric.toMetric, hd]
    · simp only [collectDefaultMetrics, Registry.registerMetric, DefaultMetric.toMetric, hd,
        if_false]
      apply ih
      intro ⟨h1, h2⟩
      apply h
      refine ⟨?_, ?_⟩
      · simp only [List.map_cons, List.nodup_cons]
        refine ⟨?_, h1⟩
        intro hmem
        obtain ⟨e, he, heq⟩ := List.mem_map.1 hmem
        apply h2 e he
        simp [Registry.names, heq]
      · intro e he
        rcases List.mem_cons.1 he with rfl | he
        · exact hd
        · intro hmem
          apply h2 e he
          simp only [Registry.names, List.map_append, List.mem_append]
          exact Or.inl hmem

theorem registerMetric_fresh (r : Registry) (m : Metric) (h : m.name ∉ r.names) :
    r.registerMetric m = (.ok (), { r with metrics := r.metrics ++ [m] }) := by
  unfold Registry.registerMetric
  rw [if_neg h]

theorem registerMetric_taken (r : Registry) (m : Metric) (h : m.name ∈ r.names) :
    r.registerMetric m = (.error (.duplicateName m.name), r) := by
  unfold Registry.registerMetric
  rw [if_pos h]

theorem names_toMetric (defaults : List DefaultMetric) :
    (defaults.map DefaultMetric.toMetric).map Metric.name = defaults.map DefaultMetric.name := by
  simp [List.map_map, Function.comp_def, DefaultMetric.toMetric]

theorem startup_ok (defaults : List DefaultMetric)
    (hnd : (defaults.map DefaultMetric.name).Nodup)
    (hfree : "http_requests_root_total" ∉ defaults.map DefaultMetric.name) :
    startup defaults = .ok
      { register :=
          { defaultLabels := [("app", "nodejs_system_app")]
            metrics := defaults.map DefaultMetric.toMetric ++
              [⟨"http_requests_root_total", "Total number of HTTP requests to the root path",
                .counter, .rootCounter⟩] }
        rootHttpRequestCounter :=
          ⟨"http_requests_root_total", "Total number of HTTP requests to the root path", 0⟩ } := by
  unfold startup
  simp only []
  rw [collectDefaultMetrics_ok defaults _ hnd
    (by simp [Registry.names, Registry.setDefaultLabels, Registry.new])]
  simp only []
  rw [registerMetric_fresh]
  · rfl
  · simp only [Registry.names, Registry.setDefaultLabels, Registry.new, List.nil_append,
      names_toMetric]
    exact hfree

theorem startup_error (defaults : List DefaultMetric)
    (h : ¬ ((defaults.map DefaultMetric.name).Nodup ∧
      "http_requests_root_total" ∉ defaults.map DefaultMetric.name)) :
    ∃ e, startup defaults = .error e := by
  unfold startup
  simp only []
  by_cases hnd : (defaults.map DefaultMetric.name).Nodup
  · have hmem : "http_requests_root_total" ∈ defaults.map DefaultMetric.name := by
      by_contra hc
      exact h ⟨hnd, hc⟩
    rw [collectDefaultMetrics_ok defaults _ hnd
      (by simp [Registry.names, Registry.setDefaultLabels, Registry.new])]
    simp only []
    rw [registerMetric_taken]
    · exact ⟨_, rfl⟩
    · simp only [Registry.names, Registry.setDefaultLabels, Registry.new, List.nil_append,
        names_toMetric]
      exact hmem
  · obtain ⟨e, r1, he⟩ := collectDefaultMetrics_error defaults
      (Registry.new.setDefaultLabels [("app", "nodejs_system_app")]) (fun hc => hnd hc.1)
    exact ⟨e, by rw [he]⟩

/-- Every state reached from a successful start-up has the registry built at start-up
and a counter whose value is the number of requests to `/` handled so far. -/
theorem reachable_shape (defaults : List DefaultMetric) (s0 : Server)
    (h : startup defaults = .ok s0) (trace : List Arrival) :
    "http_requests_root_total" ∉ defaults.map DefaultMetric.name ∧
    (run s0 trace).register =
      { defaultLabels := [("app", "nodejs_system_app")]
        metrics := defaults.map DefaultMetric.toMetric ++
          [⟨"http_requests_root_total", "Total number of HTTP requests to the root path",
            .counter, .rootCounter⟩] } ∧
    (run s0 trace).rootHttpRequestCounter.name = "http_requests_root_total" ∧
    (run s0 trace).rootHttpRequestCounter.value = rootRequests trace := by
  by_cases hc : (defaults.map DefaultMetric.name).Nodup ∧
      "http_requests_root_total" ∉ defaults.map DefaultMetric.name
  · have hs := startup_ok defaults hc.1 hc.2
    rw [h] at hs
    injection hs with hs
    refine ⟨hc.2, ?_, ?_, ?_⟩
    · rw [run_register, hs]
    · rw [run_name, hs]
    · rw [run_value, hs]; simp
  · obtain ⟨e, he⟩ := startup_error defaults hc
    rw [h] at he
    cases he

/-! ## Rendering -/

theorem find?_toMetric_none (ds : List DefaultMetric) (n : String)
    (hfree : n ∉ ds.map DefaultMetric.name) (f : Metric → Exposition)
    (hf : ∀ m, (f m).name = m.name) :
    ((ds.map DefaultMetric.toMetric).map f).find? (fun e => e.name = n) = none := by
  rw [List.find?_eq_none]
  intro e he
  simp only [List.mem_map] at he
  obtain ⟨m, ⟨d, hd, rfl⟩, rfl⟩ := he
  simp only [hf, DefaultMetric.toMetric, decide_eq_true_eq]
  intro heq
  exact hfree (List.mem_map.2 ⟨d, hd, heq⟩)

theorem reportedValue_render (ds : List DefaultMetric) (labels : Labels) (n h : String)
    (c : Counter) (probe : ProcessProbe) (hfree : n ∉ ds.map DefaultMetric.name) :
    reportedValue
      (Registry.render ⟨labels, ds.map DefaultMetric.toMetric ++ [⟨n, h, .counter, .rootCounter⟩]⟩
        probe c) n = some (toString c.value) := by
  unfold reportedValue Registry.render
  simp only [List.map_append, List.find?_append]
  rw [find?_toMetric_none ds n hfree _ (fun m => rfl)]
  simp [collect]

theorem counter_line_eq (v : String) :
    Sample.line ⟨"http_requests_root_total", mergeLabels [] [("app", "nodejs_system_app")], v⟩
      = "http_requests_root_total\x7bapp=\"nodejs_system_app\"\x7d " ++ v := by
  rfl

theorem counter_line_mem (ds : List DefaultMetric) (h : String)
    (c : Counter) (probe : ProcessProbe) (hname : c.name = "http_requests_root_total") :
    "http_requests_root_total\x7bapp=\"nodejs_system_app\"\x7d " ++ toString c.value ∈
      expositionLines (Registry.render
        ⟨[("app", "nodejs_system_app")],
          ds.map DefaultMetric.toMetric ++ [⟨"http_requests_root_total", h, .counter, .rootCounter⟩]⟩
        probe c) := by
  unfold expositionLines Registry.render
  simp only [List.map_append, List.flatMap_append, List.mem_append]
  right
  simp only [List.map_cons, List.map_nil, List.flatMap_cons, List.flatMap_nil, List.append_nil,
    Exposition.lines, Exposition.sampleLines, collect, hname, List.mem_cons]
  right; right; left
  exact (counter_line_eq _).symm

/-! ## Lines of a text -/

theorem splitLines_ne_nil (cs : List Char) : splitLines cs ≠ [] := by
  cases cs with
  | nil => simp [splitLines]
  | cons c cs =>
    unfold splitLines
    split
    · simp
    · split <;> simp

theorem splitLines_of_no_newline (cs : List Char) (h : '\n' ∉ cs) : splitLines cs = [cs] := by
  induction cs with
  | nil => rfl
  | cons c cs ih =>
    have hc : c ≠ '\n' := fun e => h (by simp [e])
    have hcs : '\n' ∉ cs := fun e => h (List.mem_cons_of_mem _ e)
    unfold splitLines
    rw [if_neg hc, ih hcs]

theorem splitLines_append (a b : List Char) :
    splitLines (a ++ '\n' :: b) = splitLines a ++ splitLines b := by
  induction a with
  | nil => simp [splitLines]
  | cons c a ih =>
    rw [List.cons_append]
    by_cases hc : c = '\n'
    · rw [splitLines, if_pos hc, ih, splitLines, if_pos hc, List.cons_append]
    · rw [splitLines, if_neg hc, ih, splitLines, if_neg hc]
      cases hsa : splitLines a with
      | nil => exact absurd hsa (splitLines_ne_nil a)
      | cons l ls => rfl

theorem mem_textLines_joinLines (ls : List String) (l : String) (hl : l ∈ ls)
    (hnl : '\n' ∉ l.data) : l ∈ textLines (joinLines ls) := by
  induction ls with
  | nil => cases hl
  | cons x rest ih =>
    cases rest with
    | nil =>
      have hx : l = x := by simpa using hl
      subst hx
      simp [joinLines, textLines, splitLines_of_no_newline _ hnl]
    | cons y rest2 =>
      have hdata : (joinLines (x :: y :: rest2)).data
          = x.data ++ '\n' :: (joinLines (y :: rest2)).data := by
        simp [joinLines, String.data_append]
      unfold textLines
      rw [hdata, splitLines_append, List.map_append, List.mem_append]
      rcases List.mem_cons.1 hl with hx | hr
      · left
        subst hx
        simp [splitLines_of_no_newline _ hnl]
      · right
        exact ih hr

/-! ## Decimal digits -/

theorem ite_ne_of_ne {α : Type} {p : Prop} [Decidable p] {a b x : α} (ha : a ≠ x)
    (hb : b ≠ x) : (if p then a else b) ≠ x := by
  split <;> assumption

theorem digitChar_ne_newline (k : Nat) : Nat.digitChar k ≠ '\n' := by
  unfold Nat.digitChar
  repeat refine ite_ne_of_ne (by decide) ?_
  decide

theorem toDigitsCore_no_newline (fuel n : Nat) (ds : List Char) (h : '\n' ∉ ds) :
    '\n' ∉ Nat.toDigitsCore 10 fuel n ds := by
  induction fuel generalizing n ds with
  | zero => simpa [Nat.toDigitsCore] using h
  | succ f ih =>
    have hcons : '\n' ∉ Nat.digitChar (n % 10) :: ds := by
      intro hm
      rcases List.mem_cons.1 hm with e | e
      · exact digitChar_ne_newline _ e.symm
      · exact h e
    unfold Nat.toDigitsCore
    simp only []
    split
    · exact hcons
    · exact ih _ _ hcons

theorem toString_no_newline (n : Nat) : '\n' ∉ (toString n).data := by
  show '\n' ∉ (Nat.repr n).data
  unfold Nat.repr Nat.toDigits
  exact toDigitsCore_no_newline _ _ _ (by simp)

theorem counter_text_no_newline (n : Nat) :
    '\n' ∉ ("http_requests_root_total\x7bapp=\"nodejs_system_app\"\x7d " ++ toString n).data := by
  rw [String.data_append, List.mem_append, not_or]
  exact ⟨by decide, toString_no_newline n⟩

/-! ## Default labels on sample lines -/

theorem renderLabels_contains (kv : String × String) (labels : Labels) (h : kv ∈ labels) :
    (renderLabel kv).data <:+: (renderLabels labels).data := by
  induction labels with
  | nil => cases h
  | cons x rest ih =>
    cases rest with
    | nil =>
      have hx : kv = x := by simpa using h
      subst hx
      exact List.infix_refl _
    | cons y rest2 =>
      have hdata : (renderLabels (x :: y :: rest2)).data
          = (renderLabel x).data ++ (',' :: (renderLabels (y :: rest2)).data) := by
        simp [renderLabels, String.data_append]
      rw [hdata]
      rcases List.mem_cons.1 h with hx | hr
      · subst hx
        exact (List.prefix_append _ _).isInfix
      · exact (ih hr).trans ((List.suffix_cons _ _).isInfix.trans
          (List.suffix_append _ _).isInfix)

theorem line_contains_label (s : Sample) (kv : String × String) (h : kv ∈ s.labels) :
    (renderLabel kv).data <:+: s.line.data := by
  have hne : s.labels.isEmpty = false := by
    cases hl : s.labels with
    | nil => rw [hl] at h; cases h
    | cons a b => rfl
  have hdata : s.line.data = (s.name.data ++ ['\x7b']) ++ (renderLabels s.labels).data ++
      (['\x7d', ' '] ++ s.value.data) := by
    simp [Sample.line, hne, String.data_append]
  rw [hdata]
  obtain ⟨a, b, hab⟩ := renderLabels_contains kv s.labels h
  refine ⟨(s.name.data ++ ['\x7b']) ++ a, b ++ (['\x7d', ' '] ++ s.value.data), ?_⟩
  rw [← hab]
  simp [List.append_assoc]

theorem render_sample_labels (r : Registry) (probe : ProcessProbe) (c : Counter)
    (e : Exposition) (he : e ∈ r.render probe c) (smp : Sample) (hs : smp ∈ e.samples)
    (kv : String × String) (hkv : kv ∈ r.defaultLabels) : kv ∈ smp.labels := by
  unfold Registry.render at he
  obtain ⟨m, _, rfl⟩ := List.mem_map.1 he
  obtain ⟨raw, _, rfl⟩ := List.mem_map.1 hs
  simp only [mergeLabels, List.mem_append]
  exact Or.inr hkv

theorem handle_getMetrics (probe : ProcessProbe) (s : Server) :
    handle probe getMetrics s =
      (s, some { status := 200
                 contentType := .registerContentType
                 body := .metrics (s.register.render probe s.rootHttpRequestCounter) }) := by
  have h1 : countingMiddleware getMetrics s = s := by
    unfold countingMiddleware
    rw [if_neg (by decide)]
  have h2 : (handledByGet getMetrics.method && routeMatches "/metrics" getMetrics.path) = true := by
    decide
  unfold handle dispatch
  rw [h1, if_pos h2]
  rfl

theorem handle_getRoot (probe : ProcessProbe) (s : Server) :
    handle probe getRoot s =
      ({ s with rootHttpRequestCounter := s.rootHttpRequestCounter.inc },
        some { status := 200
               contentType := .frameworkDefault
               body := .sent "Hello From Node.js app Test" }) := by
  have h1 : countingMiddleware getRoot s
      = { s with rootHttpRequestCounter := s.rootHttpRequestCounter.inc } := by
    unfold countingMiddleware
    rw [if_pos (by decide)]
  have h2 : (handledByGet getRoot.method && routeMatches "/metrics" getRoot.path) = false := by
    decide
  have h3 : (handledByGet getRoot.method && routeMatches "/" getRoot.path) = true := by
    decide
  unfold handle dispatch
  rw [h1, h2, if_pos h3]
  rfl

/-! ## Concrete evaluations -/

theorem startup_sampleDefaults : startup sampleDefaults = .ok sampleServer := by
  rfl

theorem threeRootRequests_paths : ∀ a ∈ threeRootRequests, a.req.path = "/" := by
  decide

/-! ## The claims -/

/-- C1: on a freshly started server, after any sequence of requests the render of the
registry reports for `http_requests_root_total` the number of handled requests whose
path is `/`: N after N requests to `/`, and 0 when no request to `/` has been made. -/
theorem root_total_counts_root_requests (defaults : List DefaultMetric) (s0 : Server)
    (hstart : startup defaults = .ok s0) (trace : List Arrival) (probe : ProcessProbe) :
    reportedValue ((run s0 trace).register.render probe (run s0 trace).rootHttpRequestCounter)
        "http_requests_root_total" = some (toString (rootRequests trace)) ∧
    ((∀ a ∈ trace, a.req.path = "/") → rootRequests trace = trace.length) ∧
    ((∀ a ∈ trace, a.req.path ≠ "/") → rootRequests trace = 0) := by
  obtain ⟨hfree, hreg, _, hval⟩ := reachable_shape defaults s0 hstart trace
  refine ⟨?_, ?_, ?_⟩
  · rw [hreg, reportedValue_render defaults _ _ _ _ probe hfree, hval]
  · intro hall
    unfold rootRequests
    rw [List.countP_eq_length]
    intro a ha
    simpa using hall a ha
  · intro hnone
    unfold rootRequests
    rw [List.countP_eq_zero]
    intro a ha
    simpa using hnone a ha

/-- Witness for C1: with the sample default metrics, three requests to `/` make the
render report 3. -/
theorem root_total_counts_root_requests_witness :
    startup sampleDefaults = .ok sampleServer ∧
    reportedValue
      ((run sampleServer threeRootRequests).register.render sampleProbe
        (run sampleServer threeRootRequests).rootHttpRequestCounter)
      "http_requests_root_total" = some "3" :=
  ⟨startup_sampleDefaults,
    (root_total_counts_root_requests sampleDefaults sampleServer startup_sampleDefaults
      threeRootRequests sampleProbe).1⟩

/-- C2: the counting middleware adds 1 to `http_requests_root_total` exactly when the
request path is `/`; the outcome is the same for every method, route dispatch adds
nothing to it, and a request with another path (such as `/metrics`) leaves the state
unchanged. -/
theorem middleware_counts_iff_root_path (probe : ProcessProbe) (req : Request) (s : Server) :
    ((countingMiddleware req s).rootHttpRequestCounter.value
        = s.rootHttpRequestCounter.value + 1 ↔ req.path = "/") ∧
    (req.path ≠ "/" → countingMiddleware req s = s) ∧
    (∀ m : Method, countingMiddleware ⟨m, req.path⟩ s = countingMiddleware req s) ∧
    (handle probe req s).1 = countingMiddleware req s ∧
    (∀ m : Method, (handle probe ⟨m, "/metrics"⟩ s).1 = s) := by
  refine ⟨?_, ?_, ?_, handle_fst probe req s, ?_⟩
  · rw [countingMiddleware_value]
    by_cases h : req.path = "/" <;> simp [h]
  · intro h
    unfold countingMiddleware
    rw [if_neg h]
  · intro m
    unfold countingMiddleware
    rfl
  · intro m
    rw [handle_fst]
    unfold countingMiddleware
    have hne : ¬ ("/metrics" = "/") := by decide
    rw [if_neg hne]

/-- C3: handling one `GET /` request end to end raises `http_requests_root_total` by
exactly 1: the middleware increments once and the root handler returns the state it was
given. -/
theorem get_root_increments_once (probe : ProcessProbe) (s : Server) :
    (handle probe getRoot s).1.rootHttpRequestCounter.value
        = s.rootHttpRequestCounter.value + 1 ∧
    (countingMiddleware getRoot s).rootHttpRequestCounter.value
        = s.rootHttpRequestCounter.value + 1 ∧
    (∀ s1 : Server, (rootHandler s1).1 = s1) ∧
    handle probe getRoot s
        = ((rootHandler (countingMiddleware getRoot s)).1,
            some (rootHandler (countingMiddleware getRoot s)).2) ∧
    (handle probe getRoot s).1.rootHttpRequestCounter.value
        ≠ s.rootHttpRequestCounter.value + 2 := by
  have h1 : countingMiddleware getRoot s
      = { s with rootHttpRequestCounter := s.rootHttpRequestCounter.inc } := by
    unfold countingMiddleware
    rw [if_pos (by decide)]
  refine ⟨?_, ?_, fun _ => rfl, ?_, ?_⟩
  · rw [handle_getRoot]; rfl
  · rw [h1]; rfl
  · rw [handle_getRoot, h1]; rfl
  · rw [handle_getRoot]
    show s.rootHttpRequestCounter.value + 1 ≠ s.rootHttpRequestCounter.value + 2
    omega

/-- C4 (as amended): after N requests to `/` on a freshly started server, `GET /metrics`
is answered with status 200 and a body that has the line
`http_requests_root_total{app="nodejs_system_app"} N`: the metric name, the default label
in braces, a single space and the decimal value. -/
theorem metrics_body_has_labelled_counter_line (defaults : List DefaultMetric) (s0 : Server)
    (hstart : startup defaults = .ok s0) (trace : List Arrival)
    (hroot : ∀ a ∈ trace, a.req.path = "/") (probe : ProcessProbe) :
    ∃ res, (handle probe getMetrics (run s0 trace)).2 = some res ∧ res.status = 200 ∧
      "http_requests_root_total\x7bapp=\"nodejs_system_app\"\x7d " ++ toString trace.length
        ∈ textLines res.body.text := by
  obtain ⟨_, hreg, hname, hval⟩ := reachable_shape defaults s0 hstart trace
  have hlen : rootRequests trace = trace.length := by
    unfold rootRequests
    rw [List.countP_eq_length]
    intro a ha
    simpa using hroot a ha
  rw [handle_getMetrics]
  refine ⟨_, rfl, rfl, ?_⟩
  show _ ∈ textLines (joinLines (expositionLines _))
  apply mem_textLines_joinLines
  · rw [hreg, ← hlen, ← hval]
    exact counter_line_mem defaults _ _ probe hname
  · exact counter_text_no_newline _

/-- Witness for C4 (as amended): with the sample default metrics, after three requests
to `/` the body of `GET /metrics` has the line
`http_requests_root_total{app="nodejs_system_app"} 3`. -/
theorem metrics_body_has_labelled_counter_line_witness :
    startup sampleDefaults = .ok sampleServer ∧
    (∀ a ∈ threeRootRequests, a.req.path = "/") ∧
    ∃ res, (handle sampleProbe getMetrics (run sampleServer threeRootRequests)).2 = some res ∧
      res.status = 200 ∧
      "http_requests_root_total\x7bapp=\"nodejs_system_app\"\x7d 3" ∈ textLines res.body.text :=
  ⟨startup_sampleDefaults, threeRootRequests_paths,
    metrics_body_has_labelled_counter_line sampleDefaults sampleServer startup_sampleDefaults
      threeRootRequests threeRootRequests_paths sampleProbe⟩

/-- Counterexample to C4 as stated: with the sample default metrics, after three requests
to `/` on a freshly started server, no line of the body of `GET /metrics` is
`http_requests_root_total 3`. -/
theorem metrics_body_lacks_unlabelled_counter_line :
    startup sampleDefaults = .ok sampleServer ∧
    (∀ a ∈ threeRootRequests, a.req.path = "/") ∧
    ∃ res, (handle sampleProbe getMetrics (run sampleServer threeRootRequests)).2 = some res ∧
      "http_requests_root_total " ++ toString threeRootRequests.length
        ∉ textLines res.body.text := by
  refine ⟨startup_sampleDefaults, threeRootRequests_paths, ?_⟩
  rw [handle_getMetrics]
  refine ⟨_, rfl, ?_⟩
  decide

/-- C5: in every rendering of the registry of a started server, and so in the body of
every `GET /metrics` response, each sample of each metric (the custom counter and the
default metrics alike) has the label pair `app="nodejs_system_app"`, and the text of its
line contains `app="nodejs_system_app"`. -/
theorem default_label_on_every_sample (defaults : List DefaultMetric) (s0 : Server)
    (hstart : startup defaults = .ok s0) (trace : List Arrival) (probe : ProcessProbe) :
    ∃ es, (handle probe getMetrics (run s0 trace)).2
        = some { status := 200, contentType := .registerContentType, body := .metrics es } ∧
      es = (run s0 trace).register.render probe (run s0 trace).rootHttpRequestCounter ∧
      (∃ e ∈ es, e.name = "http_requests_root_total" ∧ e.samples ≠ []) ∧
      ∀ e ∈ es, ∀ smp ∈ e.samples,
        ("app", "nodejs_system_app") ∈ smp.labels ∧
        "app=\"nodejs_system_app\"".data <:+: smp.line.data := by
  obtain ⟨_, hreg, _, _⟩ := reachable_shape defaults s0 hstart trace
  rw [handle_getMetrics]
  refine ⟨_, rfl, rfl, ?_, ?_⟩
  · rw [hreg]
    unfold Registry.render
    rw [List.map_append]
    exact ⟨_, List.mem_append_right _ (List.mem_singleton_self _), rfl,
      List.cons_ne_nil _ _⟩
  · intro e he smp hs
    have hmem : ("app", "nodejs_system_app") ∈ smp.labels := by
      apply render_sample_labels _ probe _ e he smp hs
      rw [hreg]
      exact List.mem_singleton_self _
    exact ⟨hmem, line_contains_label smp _ hmem⟩

/-- Witness for C5: the rendering after three requests to `/` with the sample default
metrics. -/
theorem default_label_on_every_sample_witness :
    startup sampleDefaults = .ok sampleServer ∧
    ∃ es, (handle sampleProbe getMetrics (run sampleServer threeRootRequests)).2
        = some { status := 200, contentType := .registerContentType, body := .metrics es } ∧
      es = (run sampleServer threeRootRequests).register.render sampleProbe
        (run sampleServer threeRootRequests).rootHttpRequestCounter ∧
      (∃ e ∈ es, e.name = "http_requests_root_total" ∧ e.samples ≠ []) ∧
      ∀ e ∈ es, ∀ smp ∈ e.samples,
        ("app", "nodejs_system_app") ∈ smp.labels ∧
        "app=\"nodejs_system_app\"".data <:+: smp.line.data :=
  ⟨startup_sampleDefaults,
    default_label_on_every_sample sampleDefaults sampleServer startup_sampleDefaults
      threeRootRequests sampleProbe⟩

/-- C6: in every reachable state, two `GET /metrics` requests in succession report the
same value of `http_requests_root_total`, the value of the counter, and leave the state
of the server (so the counter) as it was before them. -/
theorem metrics_render_is_pure_read (defaults : List DefaultMetric) (s : Server)
    (hreach : Reachable defaults s) (probe1 probe2 : ProcessProbe) :
    ∃ es1 es2,
      (handle probe1 getMetrics s).2
        = some { status := 200, contentType := .registerContentType, body := .metrics es1 } ∧
      (handle probe2 getMetrics (handle probe1 getMetrics s).1).2
        = some { status := 200, contentType := .registerContentType, body := .metrics es2 } ∧
      reportedValue es1 "http_requests_root_total"
        = some (toString s.rootHttpRequestCounter.value) ∧
      reportedValue es2 "http_requests_root_total"
        = some (toString s.rootHttpRequestCounter.value) ∧
      (handle probe1 getMetrics s).1 = s ∧
      (handle probe2 getMetrics (handle probe1 getMetrics s).1).1 = s := by
  obtain ⟨s0, trace, hstart, rfl⟩ := hreach
  obtain ⟨hfree, hreg, _, _⟩ := reachable_shape defaults s0 hstart trace
  rw [handle_getMetrics, handle_getMetrics]
  refine ⟨_, _, rfl, rfl, ?_, ?_, rfl, rfl⟩
  · rw [hreg, reportedValue_render defaults _ _ _ _ probe1 hfree]
  · rw [hreg, reportedValue_render defaults _ _ _ _ probe2 hfree]

/-- Witness for C6: the state reached by three requests to `/` is reachable, and two
renders in that state both report 3 and change nothing. -/
theorem metrics_render_is_pure_read_witness :
    Reachable sampleDefaults (run sampleServer threeRootRequests) ∧
    ∃ es1 es2,
      (handle sampleProbe getMetrics (run sampleServer threeRootRequests)).2
        = some { status := 200, contentType := .registerContentType, body := .metrics es1 } ∧
      (handle sampleProbe getMetrics
          (handle sampleProbe getMetrics (run sampleServer threeRootRequests)).1).2
        = some { status := 200, contentType := .registerContentType, body := .metrics es2 } ∧
      reportedValue es1 "http_requests_root_total" = some "3" ∧
      reportedValue es2 "http_requests_root_total" = some "3" ∧
      (handle sampleProbe getMetrics (run sampleServer threeRootRequests)).1
        = run sampleServer threeRootRequests ∧
      (handle sampleProbe getMetrics
          (handle sampleProbe getMetrics (run sampleServer threeRootRequests)).1).1
        = run sampleServer threeRootRequests :=
  ⟨⟨sampleServer, threeRootRequests, startup_sampleDefaults, rfl⟩,
    metrics_render_is_pure_read sampleDefaults (run sampleServer threeRootRequests)
      ⟨sampleServer, threeRootRequests, startup_sampleDefaults, rfl⟩ sampleProbe sampleProbe⟩

/-- C7: the counter never decreases: handling any request, and so any finite sequence of
requests, leaves `http_requests_root_total` at least as large as before; in a run, the
value after each request is at least the value before it. -/
theorem root_total_monotonic (s : Server) :
    (∀ (probe : ProcessProbe) (req : Request),
      s.rootHttpRequestCounter.value ≤ (handle probe req s).1.rootHttpRequestCounter.value) ∧
    (∀ trace : List Arrival,
      s.rootHttpRequestCounter.value ≤ (run s trace).rootHttpRequestCounter.value) ∧
    (∀ (before : List Arrival) (a : Arrival),
      (run s before).rootHttpRequestCounter.value
        ≤ (run s (before ++ [a])).rootHttpRequestCounter.value) := by
  refine ⟨?_, ?_, ?_⟩
  · intro probe req
    rw [handle_fst, countingMiddleware_value]
    omega
  · intro trace
    rw [run_value]
    omega
  · intro before a
    rw [run_append, run_value (run s before)]
    omega

/-- C8: registering a metric whose name is already registered fails with the
duplicate-name error and leaves the registry as it was; a fresh name is appended; names
stay unique; and start-up succeeds exactly when the default metrics have distinct names
and `http_requests_root_total` is not among them. -/
theorem register_rejects_duplicate_names (r : Registry) (m : Metric)
    (defaults : List DefaultMetric) :
    (m.name ∈ r.names → r.registerMetric m = (.error (.duplicateName m.name), r)) ∧
    (m.name ∉ r.names →
      r.registerMetric m = (.ok (), { r with metrics := r.metrics ++ [m] })) ∧
    (r.names.Nodup → (r.registerMetric m).2.names.Nodup) ∧
    ((∃ s, startup defaults = .ok s) ↔
      (defaults.map DefaultMetric.name).Nodup ∧
        "http_requests_root_total" ∉ defaults.map DefaultMetric.name) ∧
    (∀ s, startup defaults = .ok s → s.register.names.Nodup ∧
      "http_requests_root_total" ∈ s.register.names) := by
  refine ⟨registerMetric_taken r m, registerMetric_fresh r m, ?_, ?_, ?_⟩
  · intro hnd
    by_cases h : m.name ∈ r.names
    · rw [registerMetric_taken r m h]; exact hnd
    · rw [registerMetric_fresh r m h]
      simp only [Registry.names, List.map_append, List.map_cons, List.map_nil]
      rw [List.nodup_append]
      refine ⟨hnd, List.nodup_singleton _, ?_⟩
      intro x hx hx2
      rw [List.mem_singleton] at hx2
      subst hx2
      exact h hx
  · constructor
    · rintro ⟨s, hs⟩
      by_contra hc
      obtain ⟨e, he⟩ := startup_error defaults hc
      rw [hs] at he
      cases he
    · rintro ⟨h1, h2⟩
      exact ⟨_, startup_ok defaults h1 h2⟩
  · intro s hs
    by_cases hc : (defaults.map DefaultMetric.name).Nodup ∧
        "http_requests_root_total" ∉ defaults.map DefaultMetric.name
    · have hok := startup_ok defaults hc.1 hc.2
      rw [hs] at hok
      injection hok with hok
      subst hok
      simp only [Registry.names, List.map_append, List.map_cons, List.map_nil, names_toMetric]
      refine ⟨?_, by simp⟩
      rw [List.nodup_append]
      refine ⟨hc.1, List.nodup_singleton _, ?_⟩
      intro x hx hx2
      rw [List.mem_singleton] at hx2
      subst hx2
      exact hc.2 hx
    · obtain ⟨e, he⟩ := startup_error defaults hc
      rw [hs] at he
      cases he

/-- Witness for C8: registering a second metric named `http_requests_root_total` in the
registry of the sample server fails and returns that registry unchanged. -/
theorem register_rejects_duplicate_names_witness :
    sampleServer.register.registerMetric
        ⟨"http_requests_root_total", "Another counter", .counter, .rootCounter⟩
      = (.error (.duplicateName "http_requests_root_total"), sampleServer.register) :=
  (register_rejects_duplicate_names sampleServer.register
    ⟨"http_requests_root_total", "Another counter", .counter, .rootCounter⟩ sampleDefaults).1
    (by decide)

/-- C9: in every state of the server, `GET /` is answered with status 200 and the body
`Hello From Node.js app Test`, whatever the counter value and the requests handled
before. -/
theorem get_root_greeting (probe : ProcessProbe) (s : Server) :
    ∃ res, (handle probe getRoot s).2 = some res ∧ res.status = 200 ∧
      res.body = .sent "Hello From Node.js app Test" ∧
      res.body.text = "Hello From Node.js app Test" := by
  rw [handle_getRoot]
  exact ⟨_, rfl, rfl, rfl, rfl⟩

end NodeApp
